import Mathlib

/-!
# Godwallet — verification of the lease-lifecycle core

Shallow embedding of the Godwallet backend's lease/listing state machine:

* the `DomainLeaseNFT` Solidity contract (mintLease / terminateLease /
  transfer / burn and the `domainToToken` binding mapping);
* the listing routes of `routes/domains.js` (create / update / cancel);
* the auth routes of `routes/auth.js` (token issuance and refresh);
* a spec-modelled `createLease` (the lease-creation route is not among the
  provided sources).

Addresses are modelled as `Nat` (0 = Solidity's `address(0)`); Solidity
mappings are total functions with default values, matching EVM storage
semantics.  ERC721 balances and approvals are omitted: no property below
depends on them and the contract never reads them.
-/

namespace Godwallet

/-! ## The DomainLeaseNFT contract (part_001, lines 924–1183) -/

/-- `struct LeaseInfo` of `DomainLeaseNFT`. -/
structure LeaseInfo where
  domainName : String
  lessor : Nat
  lessee : Nat
  startDate : Nat
  endDate : Nat
  priceAmount : Nat
  restrictions : String
  agreementIpfsHash : String
  active : Bool
  deriving DecidableEq, Repr

/-- The all-zero `LeaseInfo`, i.e. the value a Solidity mapping returns for
an unset key and the value `delete` resets a slot to. -/
def emptyLease : LeaseInfo :=
  { domainName := "", lessor := 0, lessee := 0, startDate := 0, endDate := 0,
    priceAmount := 0, restrictions := "", agreementIpfsHash := "", active := false }

instance : Inhabited LeaseInfo := ⟨emptyLease⟩

/-- Storage of `DomainLeaseNFT`: the `_tokenIds` counter, the two lease
mappings, the ERC721 `_owners` mapping (0 = nonexistent token), the
ERC721URIStorage `_tokenURIs` mapping, `Ownable`'s owner, and the
fee/treasury configuration. -/
structure ContractState where
  counter : Nat
  leases : Nat → LeaseInfo
  domainToToken : String → Nat
  owners : Nat → Nat
  tokenURIs : Nat → String
  contractOwner : Nat
  treasury : Nat
  platformFee : Nat

/-- State right after `constructor(_treasury)` when deployed by `deployer`. -/
def initialState (deployer treasuryAddr : Nat) : ContractState :=
  { counter := 0, leases := fun _ => emptyLease, domainToToken := fun _ => 0,
    owners := fun _ => 0, tokenURIs := fun _ => "",
    contractOwner := deployer, treasury := treasuryAddr, platformFee := 500 }

/-- `mintLease` (part_001, lines 1005–1053).  Returns the new state together
with the new token id, or the revert message.  The `_safeMint` guard of
OpenZeppelin's ERC721 (`"ERC721: token already minted"`) is included even
though it can never fire from a reachable state. -/
def mintLease (s : ContractState) (msgSender lessor lessee : Nat)
    (domainName : String) (startDate endDate priceAmount : Nat)
    (restrictions agreementIpfsHash uri : String) :
    Except String (ContractState × Nat) :=
  if msgSender ≠ s.contractOwner then
    .error "Ownable: caller is not the owner"
  else if domainName.length = 0 then
    .error "Domain name required"
  else if lessee = 0 then
    .error "Invalid lessee address"
  else if endDate ≤ startDate then
    .error "End date must be after start date"
  else if s.domainToToken domainName ≠ 0 then
    .error "Lease already exists for this domain"
  else if s.owners (s.counter + 1) ≠ 0 then
    .error "ERC721: token already minted"
  else
    let newTokenId := s.counter + 1
    .ok ({ s with
      counter := newTokenId,
      leases := fun t => if t = newTokenId then
          { domainName := domainName, lessor := lessor, lessee := lessee,
            startDate := startDate, endDate := endDate, priceAmount := priceAmount,
            restrictions := restrictions, agreementIpfsHash := agreementIpfsHash,
            active := true }
        else s.leases t,
      domainToToken := fun d => if d = domainName then newTokenId else s.domainToToken d,
      owners := fun t => if t = newTokenId then lessee else s.owners t,
      tokenURIs := fun t => if t = newTokenId then uri else s.tokenURIs t }, newTokenId)

/-- `terminateLease` (part_001, lines 1085–1097): only lessor or contract
owner, only while `active`; flips `active` to `false`. -/
def terminateLease (s : ContractState) (msgSender tokenId : Nat) :
    Except String ContractState :=
  if s.owners tokenId = 0 then
    .error "Token does not exist"
  else if msgSender ≠ (s.leases tokenId).lessor ∧ msgSender ≠ s.contractOwner then
    .error "Only lessor or owner can terminate"
  else if ¬ (s.leases tokenId).active then
    .error "Lease already inactive"
  else
    .ok { s with
      leases := fun t => if t = tokenId then
          { s.leases tokenId with active := false } else s.leases t }

/-- The contract's `_transfer` override (part_001, lines 1102–1113): the
OpenZeppelin `super._transfer` ownership update plus the custom
`leases[tokenId].lessee = to` update. -/
def transferToken (s : ContractState) (fromAddr toAddr tokenId : Nat) :
    Except String ContractState :=
  if s.owners tokenId = 0 then
    .error "ERC721: invalid token ID"
  else if s.owners tokenId ≠ fromAddr then
    .error "ERC721: transfer from incorrect owner"
  else if toAddr = 0 then
    .error "ERC721: transfer to the zero address"
  else
    .ok { s with
      owners := fun t => if t = tokenId then toAddr else s.owners t,
      leases := fun t => if t = tokenId then
          { s.leases tokenId with lessee := toAddr } else s.leases t }

/-- The contract's `_burn` override (part_001, lines 1150–1157):
`super._burn` (clears ERC721 ownership and the stored URI), then
`delete domainToToken[leases[tokenId].domainName]` and
`delete leases[tokenId]`. -/
def burnToken (s : ContractState) (tokenId : Nat) : Except String ContractState :=
  if s.owners tokenId = 0 then
    .error "ERC721: invalid token ID"
  else
    let domain := (s.leases tokenId).domainName
    .ok { s with
      owners := fun t => if t = tokenId then 0 else s.owners t,
      tokenURIs := fun t => if t = tokenId then "" else s.tokenURIs t,
      domainToToken := fun d => if d = domain then 0 else s.domainToToken d,
      leases := fun t => if t = tokenId then emptyLease else s.leases t }

/-- `setPlatformFee` (part_001, lines 1118–1121). -/
def setPlatformFee (s : ContractState) (msgSender fee : Nat) :
    Except String ContractState :=
  if msgSender ≠ s.contractOwner then
    .error "Ownable: caller is not the owner"
  else if 1000 < fee then
    .error "Fee cannot exceed 10%"
  else
    .ok { s with platformFee := fee }

/-- `setTreasury` (part_001, lines 1126–1129). -/
def setTreasury (s : ContractState) (msgSender t : Nat) :
    Except String ContractState :=
  if msgSender ≠ s.contractOwner then
    .error "Ownable: caller is not the owner"
  else if t = 0 then
    .error "Invalid treasury address"
  else
    .ok { s with treasury := t }

/-! ## Reachable contract states -/

/-- One successful state-mutating call on the contract. -/
inductive Step : ContractState → ContractState → Prop where
  | mint (s s' : ContractState) (msgSender lessor lessee : Nat) (domainName : String)
      (startDate endDate priceAmount : Nat) (restrictions agreementIpfsHash uri : String)
      (tid : Nat) :
      mintLease s msgSender lessor lessee domainName startDate endDate priceAmount
        restrictions agreementIpfsHash uri = .ok (s', tid) → Step s s'
  | terminate (s s' : ContractState) (msgSender tokenId : Nat) :
      terminateLease s msgSender tokenId = .ok s' → Step s s'
  | transfer (s s' : ContractState) (fromAddr toAddr tokenId : Nat) :
      transferToken s fromAddr toAddr tokenId = .ok s' → Step s s'
  | burn (s s' : ContractState) (tokenId : Nat) :
      burnToken s tokenId = .ok s' → Step s s'
  | setFee (s s' : ContractState) (msgSender fee : Nat) :
      setPlatformFee s msgSender fee = .ok s' → Step s s'
  | setTreas (s s' : ContractState) (msgSender t : Nat) :
      setTreasury s msgSender t = .ok s' → Step s s'

/-- States reachable from deployment by any sequence of successful calls. -/
inductive Reachable (deployer treasuryAddr : Nat) : ContractState → Prop where
  | init : Reachable deployer treasuryAddr (initialState deployer treasuryAddr)
  | step {s s' : ContractState} :
      Reachable deployer treasuryAddr s → Step s s' → Reachable deployer treasuryAddr s'

/-- The inductive invariant of the contract storage: token ids above the
counter are unminted, token 0 never exists, nonexistent tokens carry the
all-zero lease record, every existing token's lease record is consistent
(lessee = ERC721 owner, end after start, nonempty domain, registered in
`domainToToken`), and every nonzero `domainToToken` entry points back to an
existing token for that domain. -/
def Inv (s : ContractState) : Prop :=
  (∀ t, s.counter < t → s.owners t = 0) ∧
  (∀ t, s.owners t = 0 → s.leases t = emptyLease) ∧
  s.owners 0 = 0 ∧
  (∀ t, s.owners t ≠ 0 →
      (s.leases t).lessee = s.owners t ∧
      (s.leases t).startDate < (s.leases t).endDate ∧
      (s.leases t).domainName.length ≠ 0 ∧
      s.domainToToken ((s.leases t).domainName) = t) ∧
  (∀ d, s.domainToToken d ≠ 0 →
      s.owners (s.domainToToken d) ≠ 0 ∧
      (s.leases (s.domainToToken d)).domainName = d)

/-! ### Characterizations of the successful calls -/

theorem mintLease_ok {s s' : ContractState} {msgSender lessor lessee : Nat}
    {domainName : String} {startDate endDate priceAmount : Nat}
    {restrictions agreementIpfsHash uri : String} {tid : Nat}
    (h : mintLease s msgSender lessor lessee domainName startDate endDate priceAmount
        restrictions agreementIpfsHash uri = .ok (s', tid)) :
    msgSender = s.contractOwner ∧ domainName.length ≠ 0 ∧ lessee ≠ 0 ∧
    startDate < endDate ∧ s.domainToToken domainName = 0 ∧
    s.owners (s.counter + 1) = 0 ∧ tid = s.counter + 1 ∧
    s' = { s with
      counter := s.counter + 1,
      leases := fun t => if t = s.counter + 1 then
          { domainName := domainName, lessor := lessor, lessee := lessee,
            startDate := startDate, endDate := endDate, priceAmount := priceAmount,
            restrictions := restrictions, agreementIpfsHash := agreementIpfsHash,
            active := true }
        else s.leases t,
      domainToToken := fun d => if d = domainName then s.counter + 1 else s.domainToToken d,
      owners := fun t => if t = s.counter + 1 then lessee else s.owners t,
      tokenURIs := fun t => if t = s.counter + 1 then uri else s.tokenURIs t } := by
  unfold mintLease at h
  split at h
  · exact absurd h (by simp)
  split at h
  · exact absurd h (by simp)
  split at h
  · exact absurd h (by simp)
  split at h
  · exact absurd h (by simp)
  split at h
  · exact absurd h (by simp)
  split at h
  · exact absurd h (by simp)
  rename_i h1 h2 h3 h4 h5 h6
  simp only [Except.ok.injEq, Prod.mk.injEq] at h
  refine ⟨by omega, h2, h3, by omega, by simpa using h5, by simpa using h6,
    h.2.symm, h.1.symm⟩

theorem terminateLease_ok {s s' : ContractState} {msgSender tokenId : Nat}
    (h : terminateLease s msgSender tokenId = .ok s') :
    s.owners tokenId ≠ 0 ∧
    (msgSender = (s.leases tokenId).lessor ∨ msgSender = s.contractOwner) ∧
    (s.leases tokenId).active = true ∧
    s' = { s with
      leases := fun t => if t = tokenId then
          { s.leases tokenId with active := false } else s.leases t } := by
  unfold terminateLease at h
  split at h
  · exact absurd h (by simp)
  split at h
  · exact absurd h (by simp)
  split at h
  · exact absurd h (by simp)
  rename_i h1 h2 h3
  simp only [Except.ok.injEq] at h
  refine ⟨h1, ?_, by simpa using h3, h.symm⟩
  by_cases hm : msgSender = (s.leases tokenId).lessor
  · exact Or.inl hm
  · exact Or.inr (by tauto)

theorem transferToken_ok {s s' : ContractState} {fromAddr toAddr tokenId : Nat}
    (h : transferToken s fromAddr toAddr tokenId = .ok s') :
    s.owners tokenId = fromAddr ∧ fromAddr ≠ 0 ∧ toAddr ≠ 0 ∧
    s' = { s with
      owners := fun t => if t = tokenId then toAddr else s.owners t,
      leases := fun t => if t = tokenId then
          { s.leases tokenId with lessee := toAddr } else s.leases t } := by
  unfold transferToken at h
  split at h
  · exact absurd h (by simp)
  split at h
  · exact absurd h (by simp)
  split at h
  · exact absurd h (by simp)
  rename_i h1 h2 h3
  simp only [Except.ok.injEq] at h
  have hfrom : s.owners tokenId = fromAddr := by
    by_contra hc; exact h2 hc
  exact ⟨hfrom, by rw [← hfrom]; exact h1, h3, h.symm⟩

theorem burnToken_ok {s s' : ContractState} {tokenId : Nat}
    (h : burnToken s tokenId = .ok s') :
    s.owners tokenId ≠ 0 ∧
    s' = { s with
      owners := fun t => if t = tokenId then 0 else s.owners t,
      tokenURIs := fun t => if t = tokenId then "" else s.tokenURIs t,
      domainToToken := fun d =>
        if d = (s.leases tokenId).domainName then 0 else s.domainToToken d,
      leases := fun t => if t = tokenId then emptyLease else s.leases t } := by
  unfold burnToken at h
  split at h
  · exact absurd h (by simp)
  rename_i h1
  simp only [Except.ok.injEq] at h
  exact ⟨h1, h.symm⟩

theorem setPlatformFee_ok {s s' : ContractState} {msgSender fee : Nat}
    (h : setPlatformFee s msgSender fee = .ok s') :
    s' = { s with platformFee := fee } := by
  unfold setPlatformFee at h
  split at h
  · exact absurd h (by simp)
  split at h
  · exact absurd h (by simp)
  simp only [Except.ok.injEq] at h
  exact h.symm

theorem setTreasury_ok {s s' : ContractState} {msgSender t : Nat}
    (h : setTreasury s msgSender t = .ok s') :
    s' = { s with treasury := t } := by
  unfold setTreasury at h
  split at h
  · exact absurd h (by simp)
  split at h
  · exact absurd h (by simp)
  simp only [Except.ok.injEq] at h
  exact h.symm

/-! ### The invariant holds in every reachable state -/

theorem inv_init (deployer treasuryAddr : Nat) :
    Inv (initialState deployer treasuryAddr) := by
  refine ⟨fun t _ => rfl, fun t _ => rfl, rfl, fun t ht => absurd rfl ht,
    fun d hd => absurd rfl hd⟩

theorem inv_mint {s s' : ContractState} {msgSender lessor lessee : Nat}
    {domainName : String} {startDate endDate priceAmount : Nat}
    {restrictions agreementIpfsHash uri : String} {tid : Nat}
    (hInv : Inv s)
    (h : mintLease s msgSender lessor lessee domainName startDate endDate priceAmount
        restrictions agreementIpfsHash uri = .ok (s', tid)) : Inv s' := by
  obtain ⟨hcnt, hray, h0, hex, hbind⟩ := hInv
  obtain ⟨-, hname, hlse, hdate, hdom, -, -, hs'⟩ := mintLease_ok h
  subst hs'
  refine ⟨?_, ?_, ?_, ?_, ?_⟩
  · intro t ht
    dsimp only at ht ⊢
    rw [if_neg (by omega)]
    exact hcnt t (by omega)
  · intro t ht
    dsimp only at ht ⊢
    by_cases he : t = s.counter + 1
    · rw [if_pos he] at ht; exact absurd ht hlse
    · rw [if_neg he] at ht ⊢; exact hray t ht
  · dsimp only
    rw [if_neg (by omega)]
    exact h0
  · intro t ht
    dsimp only at ht ⊢
    by_cases he : t = s.counter + 1
    · subst he
      simp only [eq_self_iff_true, if_true] at ht ⊢
      exact ⟨trivial, hdate, hname, trivial⟩
    · simp only [if_neg he] at ht ⊢
      obtain ⟨hl, hd, hn, hb⟩ := hex t ht
      refine ⟨hl, hd, hn, ?_⟩
      have hne : (s.leases t).domainName ≠ domainName := by
        intro hEq
        rw [hEq, hdom] at hb
        exact ht (hb ▸ h0)
      simp only [if_neg hne]
      exact hb
  · intro d hd
    dsimp only at hd ⊢
    by_cases he : d = domainName
    · subst he
      simp only [eq_self_iff_true, if_true] at hd ⊢
      exact ⟨hlse, trivial⟩
    · simp only [if_neg he] at hd ⊢
      obtain ⟨ho, hn⟩ := hbind d hd
      have hne : s.domainToToken d ≠ s.counter + 1 := by
        intro hEq
        exact ho (by rw [hEq]; exact hcnt _ (by omega))
      simp only [if_neg hne]
      exact ⟨ho, hn⟩

theorem inv_terminate {s s' : ContractState} {msgSender tokenId : Nat}
    (hInv : Inv s) (h : terminateLease s msgSender tokenId = .ok s') : Inv s' := by
  obtain ⟨hcnt, hray, h0, hex, hbind⟩ := hInv
  obtain ⟨hexists, -, -, hs'⟩ := terminateLease_ok h
  subst hs'
  refine ⟨hcnt, ?_, h0, ?_, ?_⟩
  · intro t ht
    dsimp only at ht ⊢
    rw [if_neg (by rintro rfl; exact hexists ht)]
    exact hray t ht
  · intro t ht
    dsimp only at ht ⊢
    by_cases he : t = tokenId
    · subst he
      simp only [eq_self_iff_true, if_true]
      obtain ⟨hl, hd, hn, hb⟩ := hex t ht
      exact ⟨hl, hd, hn, hb⟩
    · simp only [if_neg he]
      exact hex t ht
  · intro d hd
    dsimp only at hd ⊢
    obtain ⟨ho, hn⟩ := hbind d hd
    by_cases he : s.domainToToken d = tokenId
    · simp only [if_pos he]
      refine ⟨ho, ?_⟩
      rw [he] at hn
      exact hn
    · simp only [if_neg he]
      exact ⟨ho, hn⟩

theorem inv_transfer {s s' : ContractState} {fromAddr toAddr tokenId : Nat}
    (hInv : Inv s) (h : transferToken s fromAddr toAddr tokenId = .ok s') : Inv s' := by
  obtain ⟨hcnt, hray, h0, hex, hbind⟩ := hInv
  obtain ⟨hfrom, hf0, ht0, hs'⟩ := transferToken_ok h
  have hexists : s.owners tokenId ≠ 0 := by rw [hfrom]; exact hf0
  subst hs'
  refine ⟨?_, ?_, ?_, ?_, ?_⟩
  · intro t ht
    dsimp only at ht ⊢
    rw [if_neg (by rintro rfl; exact hexists (hcnt t ht))]
    exact hcnt t ht
  · intro t ht
    dsimp only at ht ⊢
    by_cases he : t = tokenId
    · rw [if_pos he] at ht; exact absurd ht ht0
    · rw [if_neg he] at ht ⊢; exact hray t ht
  · dsimp only
    rw [if_neg (by rintro rfl; exact hexists h0)]
    exact h0
  · intro t ht
    dsimp only at ht ⊢
    by_cases he : t = tokenId
    · subst he
      simp only [eq_self_iff_true, if_true] at ht ⊢
      obtain ⟨hl, hd, hn, hb⟩ := hex t hexists
      exact ⟨trivial, hd, hn, hb⟩
    · simp only [if_neg he] at ht ⊢
      exact hex t ht
  · intro d hd
    dsimp only at hd ⊢
    obtain ⟨ho, hn⟩ := hbind d hd
    by_cases he : s.domainToToken d = tokenId
    · simp only [if_pos he]
      exact ⟨ht0, by rw [he] at hn; exact hn⟩
    · simp only [if_neg he]
      exact ⟨ho, hn⟩

theorem inv_burn {s s' : ContractState} {tokenId : Nat}
    (hInv : Inv s) (h : burnToken s tokenId = .ok s') : Inv s' := by
  obtain ⟨hcnt, hray, h0, hex, hbind⟩ := hInv
  obtain ⟨hexists, hs'⟩ := burnToken_ok h
  obtain ⟨-, -, -, hbtok⟩ := hex tokenId hexists
  subst hs'
  refine ⟨?_, ?_, ?_, ?_, ?_⟩
  · intro t ht
    dsimp only at ht ⊢
    by_cases he : t = tokenId
    · simp only [if_pos he]
    · simp only [if_neg he]; exact hcnt t ht
  · intro t ht
    dsimp only at ht ⊢
    by_cases he : t = tokenId
    · simp only [if_pos he]
    · simp only [if_neg he] at ht ⊢; exact hray t ht
  · dsimp only
    by_cases he : (0 : Nat) = tokenId
    · simp only [if_pos he]
    · simp only [if_neg he]; exact h0
  · intro t ht
    dsimp only at ht ⊢
    by_cases he : t = tokenId
    · simp only [if_pos he] at ht; exact absurd rfl ht
    · simp only [if_neg he] at ht ⊢
      obtain ⟨hl, hd, hn, hb⟩ := hex t ht
      refine ⟨hl, hd, hn, ?_⟩
      have hne : (s.leases t).domainName ≠ (s.leases tokenId).domainName := by
        intro hEq
        rw [hEq, hbtok] at hb
        exact he hb.symm
      simp only [if_neg hne]
      exact hb
  · intro d hd
    dsimp only at hd ⊢
    by_cases he : d = (s.leases tokenId).domainName
    · simp only [if_pos he] at hd; exact absurd rfl hd
    · simp only [if_neg he] at hd ⊢
      obtain ⟨ho, hn⟩ := hbind d hd
      have hne : s.domainToToken d ≠ tokenId := by
        intro hEq
        rw [hEq] at hn
        exact he hn.symm
      simp only [if_neg hne]
      exact ⟨ho, hn⟩

theorem inv_step {s s' : ContractState} (hInv : Inv s) (h : Step s s') : Inv s' := by
  cases h with
  | mint _ _ _ _ _ _ _ _ _ _ _ heq => exact inv_mint hInv heq
  | terminate _ _ heq => exact inv_terminate hInv heq
  | transfer _ _ _ heq => exact inv_transfer hInv heq
  | burn _ heq => exact inv_burn hInv heq
  | setFee _ _ heq =>
      obtain hs' := setPlatformFee_ok heq
      subst hs'
      exact hInv
  | setTreas _ _ heq =>
      obtain hs' := setTreasury_ok heq
      subst hs'
      exact hInv

theorem inv_reachable {deployer treasuryAddr : Nat} {s : ContractState}
    (h : Reachable deployer treasuryAddr s) : Inv s := by
  induction h with
  | init => exact inv_init deployer treasuryAddr
  | step _ hstep ih => exact inv_step ih hstep

/-- For every step out of a state satisfying the invariant, an existing
token's domain binding stays on the token while the token exists and is 0
exactly when the token ceased to exist (the only step removing a token is
the burn). -/
theorem step_binding_update {s s' : ContractState} (hInv : Inv s) (hstep : Step s s')
    {tid : Nat} (hexist : s.owners tid ≠ 0) :
    (s'.owners tid ≠ 0 → s'.domainToToken ((s.leases tid).domainName) = tid) ∧
    (s'.owners tid = 0 → s'.domainToToken ((s.leases tid).domainName) = 0) := by
  obtain ⟨hcnt, hray, h0, hex, hbind⟩ := hInv
  obtain ⟨hl, hd, hn, hb⟩ := hex tid hexist
  cases hstep with
  | mint msgSender lessor lessee domainName startDate endDate priceAmount
      restrictions agreementIpfsHash uri tid2 heq =>
      obtain ⟨-, -, hlse, -, hdom, -, -, hs'⟩ := mintLease_ok heq
      subst hs'
      dsimp only
      have htid : tid ≠ s.counter + 1 := by
        intro hEq
        exact hexist (by rw [hEq]; exact hcnt _ (by omega))
      have hnd : (s.leases tid).domainName ≠ domainName := by
        intro hEq
        rw [hEq, hdom] at hb
        exact hexist (hb ▸ h0)
      simp only [if_neg htid, if_neg hnd]
      exact ⟨fun _ => hb, fun hc => absurd hc hexist⟩
  | terminate msgSender tokenId heq =>
      obtain ⟨hex2, -, -, hs'⟩ := terminateLease_ok heq
      subst hs'
      dsimp only
      exact ⟨fun _ => hb, fun hc => absurd hc hexist⟩
  | transfer fromAddr toAddr tokenId heq =>
      obtain ⟨hfrom, hf0, ht0, hs'⟩ := transferToken_ok heq
      subst hs'
      dsimp only
      by_cases he : tid = tokenId
      · simp only [if_pos he]
        exact ⟨fun _ => hb, fun hc => absurd hc ht0⟩
      · simp only [if_neg he]
        exact ⟨fun _ => hb, fun hc => absurd hc hexist⟩
  | burn tokenId heq =>
      obtain ⟨hex2, hs'⟩ := burnToken_ok heq
      subst hs'
      dsimp only
      by_cases he : tid = tokenId
      · subst he
        simp
      · simp only [if_neg he]
        have hnd : (s.leases tid).domainName ≠ (s.leases tokenId).domainName := by
          intro hEq
          obtain ⟨-, -, -, hb2⟩ := hex tokenId hex2
          rw [hEq, hb2] at hb
          exact he hb.symm
        simp only [if_neg hnd]
        exact ⟨fun _ => hb, fun hc => absurd hc hexist⟩
  | setFee msgSender fee heq =>
      obtain hs' := setPlatformFee_ok heq
      subst hs'
      exact ⟨fun _ => hb, fun hc => absurd hc hexist⟩
  | setTreas msgSender t heq =>
      obtain hs' := setTreasury_ok heq
      subst hs'
      exact ⟨fun _ => hb, fun hc => absurd hc hexist⟩

/-! ### Sample reachable states (used by the witnesses) -/

/-- One `mintLease` call from the freshly deployed contract
(deployer/owner = 1, treasury = 2): lessor 10, lessee 20, domain
`"dream.com"`, lease from 100 to 200. -/
def mintOne : Except String (ContractState × Nat) :=
  mintLease (initialState 1 2) 1 10 20 "dream.com" 100 200 5000 "no adult content" "QmHash" "uri1"

/-- The state after `mintOne` (token 1 exists, bound to `"dream.com"`). -/
def stOne : ContractState :=
  match mintOne with
  | .ok (s, _) => s
  | .error _ => initialState 1 2

theorem mintOne_eq : mintOne = .ok (stOne, 1) := rfl

theorem reachable_stOne : Reachable 1 2 stOne :=
  Reachable.step Reachable.init
    (Step.mint _ _ 1 10 20 "dream.com" 100 200 5000 "no adult content" "QmHash" "uri1" 1 mintOne_eq)

/-- The state after the lessor (address 10) terminates token 1 in `stOne`:
the token still exists and stays bound, but `active = false`. -/
def stTwo : ContractState :=
  match terminateLease stOne 10 1 with
  | .ok s => s
  | .error _ => stOne

theorem terminateOne_eq : terminateLease stOne 10 1 = .ok stTwo := rfl

theorem reachable_stTwo : Reachable 1 2 stTwo :=
  Reachable.step reachable_stOne (Step.terminate _ _ 10 1 terminateOne_eq)

/-! ## Claim theorems about the contract -/

/-- C1: In every reachable state of the lease-token contract, each domain
name is bound to at most one existing lease token; `mintLease` for a domain
that already has a bound token fails — it never returns `ok`, and an
`error` result leaves the state untouched, since the embedded call returns
a new state only on `ok`; and the domain-to-token binding is cleared
exactly when that token is burned: every burn clears the burned token's
binding, and any other successful call keeps an existing token's binding
on that token, clearing it only when the token ceases to exist (which only
the burn does). -/
theorem c1_domain_token_binding {deployer treasuryAddr : Nat} {s : ContractState}
    (hreach : Reachable deployer treasuryAddr s) :
    (∀ t1 t2, s.owners t1 ≠ 0 → s.owners t2 ≠ 0 →
        (s.leases t1).domainName = (s.leases t2).domainName → t1 = t2) ∧
    (∀ msgSender lessor lessee domainName startDate endDate priceAmount
        restrictions agreementIpfsHash uri,
        s.domainToToken domainName ≠ 0 →
        ∀ s' tid,
          mintLease s msgSender lessor lessee domainName startDate endDate priceAmount
            restrictions agreementIpfsHash uri ≠ Except.ok (s', tid)) ∧
    (∀ tid, s.owners tid ≠ 0 → ∀ s', Step s s' →
        (s'.owners tid ≠ 0 → s'.domainToToken ((s.leases tid).domainName) = tid) ∧
        (s'.owners tid = 0 → s'.domainToToken ((s.leases tid).domainName) = 0)) ∧
    (∀ tid s', s.owners tid ≠ 0 → burnToken s tid = .ok s' →
        s'.domainToToken ((s.leases tid).domainName) = 0) := by
  have hInv := inv_reachable hreach
  obtain ⟨hcnt, hray, h0, hex, hbind⟩ := hInv
  refine ⟨?_, ?_, ?_, ?_⟩
  · intro t1 t2 h1 h2 hEq
    obtain ⟨-, -, -, hb1⟩ := hex t1 h1
    obtain ⟨-, -, -, hb2⟩ := hex t2 h2
    rw [hEq, hb2] at hb1
    exact hb1.symm
  · intro msgSender lessor lessee domainName startDate endDate priceAmount
      restrictions agreementIpfsHash uri hbound s' tid hok
    obtain ⟨-, -, -, -, hdom, -, -, -⟩ := mintLease_ok hok
    exact hbound hdom
  · intro tid hexist s' hstep
    exact step_binding_update ⟨hcnt, hray, h0, hex, hbind⟩ hstep hexist
  · intro tid s' hexist hok
    obtain ⟨-, hs'⟩ := burnToken_ok hok
    subst hs'
    dsimp only
    simp

/-- Witness for C1 at the concrete reachable state `stOne`: `"dream.com"`
is bound to token 1, and minting a second token for `"dream.com"` cannot
succeed. -/
theorem c1_domain_token_binding_witness :
    stOne.domainToToken "dream.com" ≠ 0 ∧
    (∀ s' tid,
        mintLease stOne 1 10 21 "dream.com" 300 400 7 "r" "h" "u" ≠
          Except.ok (s', tid)) := by
  have hbound : stOne.domainToToken "dream.com" ≠ 0 := by decide
  exact ⟨hbound,
    (c1_domain_token_binding reachable_stOne).2.1 1 10 21 "dream.com" 300 400 7 "r" "h" "u" hbound⟩

/-- C6: A lease never leaves its terminal state: in any reachable state, if
an existing token's lease has `active = false`, then after any further
successful call it still has `active = false` (no operation reactivates
it), and a repeated `terminateLease` by an authorized caller reverts with
`"Lease already inactive"` — and, being an `error` result, changes no
state. -/
theorem c6_lease_terminal_state {deployer treasuryAddr : Nat} {s : ContractState}
    (hreach : Reachable deployer treasuryAddr s) {tid : Nat}
    (hexist : s.owners tid ≠ 0) (hinactive : (s.leases tid).active = false) :
    (∀ s', Step s s' → (s'.leases tid).active = false) ∧
    (∀ msgSender, msgSender = (s.leases tid).lessor ∨ msgSender = s.contractOwner →
        terminateLease s msgSender tid = .error "Lease already inactive") := by
  obtain ⟨hcnt, hray, h0, hex, hbind⟩ := inv_reachable hreach
  constructor
  · intro s' hstep
    cases hstep with
    | mint msgSender lessor lessee domainName startDate endDate priceAmount
        restrictions agreementIpfsHash uri tid2 heq =>
        obtain ⟨-, -, -, -, -, -, -, hs'⟩ := mintLease_ok heq
        subst hs'
        dsimp only
        have htid : tid ≠ s.counter + 1 := by
          intro hEq
          exact hexist (by rw [hEq]; exact hcnt _ (by omega))
        simp only [if_neg htid]
        exact hinactive
    | terminate msgSender tokenId heq =>
        obtain ⟨-, -, -, hs'⟩ := terminateLease_ok heq
        subst hs'
        dsimp only
        by_cases he : tid = tokenId
        · simp only [if_pos he]
        · simp only [if_neg he]
          exact hinactive
    | transfer fromAddr toAddr tokenId heq =>
        obtain ⟨-, -, -, hs'⟩ := transferToken_ok heq
        subst hs'
        dsimp only
        by_cases he : tid = tokenId
        · simp only [if_pos he]
          rw [he] at hinactive
          exact hinactive
        · simp only [if_neg he]
          exact hinactive
    | burn tokenId heq =>
        obtain ⟨-, hs'⟩ := burnToken_ok heq
        subst hs'
        dsimp only
        by_cases he : tid = tokenId
        · simp only [if_pos he]
          rfl
        · simp only [if_neg he]
          exact hinactive
    | setFee msgSender fee heq =>
        obtain hs' := setPlatformFee_ok heq
        subst hs'
        exact hinactive
    | setTreas msgSender t heq =>
        obtain hs' := setTreasury_ok heq
        subst hs'
        exact hinactive
  · intro msgSender hauth
    unfold terminateLease
    rw [if_neg hexist]
    rw [if_neg (by
      intro ⟨hn1, hn2⟩
      cases hauth with
      | inl h => exact hn1 h
      | inr h => exact hn2 h)]
    rw [if_pos (by rw [hinactive]; exact Bool.false_ne_true)]

/-- Witness for C6 at `stTwo` (token 1 terminated by its lessor 10): the
second `terminateLease` by the same caller reverts with
`"Lease already inactive"`. -/
theorem c6_lease_terminal_state_witness :
    stTwo.owners 1 ≠ 0 ∧ (stTwo.leases 1).active = false ∧
    terminateLease stTwo 10 1 = .error "Lease already inactive" := by
  refine ⟨by decide, rfl, ?_⟩
  exact (c6_lease_terminal_state reachable_stTwo
    (show stTwo.owners 1 ≠ 0 by decide)
    (show (stTwo.leases 1).active = false from rfl)).2 10 (Or.inl rfl)

/-- C7: In every reachable state, every existing (minted, un-burned) lease
token has `endDate > startDate`; a `mintLease` call with `endDate ≤
startDate` never returns `ok` (it reverts, recording nothing — an `error`
result leaves the state untouched). -/
theorem c7_end_after_start {deployer treasuryAddr : Nat} {s : ContractState}
    (hreach : Reachable deployer treasuryAddr s) :
    (∀ tid, s.owners tid ≠ 0 →
        (s.leases tid).startDate < (s.leases tid).endDate) ∧
    (∀ msgSender lessor lessee domainName startDate endDate priceAmount
        restrictions agreementIpfsHash uri,
        endDate ≤ startDate →
        ∀ s' tid,
          mintLease s msgSender lessor lessee domainName startDate endDate priceAmount
            restrictions agreementIpfsHash uri ≠ Except.ok (s', tid)) := by
  obtain ⟨hcnt, hray, h0, hex, hbind⟩ := inv_reachable hreach
  constructor
  · intro tid hexist
    exact (hex tid hexist).2.1
  · intro msgSender lessor lessee domainName startDate endDate priceAmount
      restrictions agreementIpfsHash uri hle s' tid hok
    obtain ⟨-, -, -, hlt, -⟩ := mintLease_ok hok
    omega

/-- Witness for C7 at `stOne`: token 1 has `startDate 100 < endDate 200`,
and minting with `endDate ≤ startDate` cannot succeed. -/
theorem c7_end_after_start_witness :
    (stOne.leases 1).startDate < (stOne.leases 1).endDate ∧
    (∀ s' tid,
        mintLease stOne 1 10 21 "other.io" 500 500 7 "r" "h" "u" ≠
          Except.ok (s', tid)) := by
  refine ⟨(c7_end_after_start reachable_stOne).1 1 (by decide), ?_⟩
  exact (c7_end_after_start reachable_stOne).2 1 10 21 "other.io" 500 500 7 "r" "h" "u"
    (by decide)

/-- C9: In every reachable state, every existing lease token's recorded
`lessee` equals the token's current ERC721 owner; a successful mint gives
ownership of the new token to the lessee, and a successful transfer sets
both the owner and the recorded lessee to the recipient. -/
theorem c9_lessee_equals_owner {deployer treasuryAddr : Nat} {s : ContractState}
    (hreach : Reachable deployer treasuryAddr s) :
    (∀ tid, s.owners tid ≠ 0 → (s.leases tid).lessee = s.owners tid) ∧
    (∀ msgSender lessor lessee domainName startDate endDate priceAmount
        restrictions agreementIpfsHash uri s' tid,
        mintLease s msgSender lessor lessee domainName startDate endDate priceAmount
          restrictions agreementIpfsHash uri = .ok (s', tid) →
        s'.owners tid = lessee ∧ (s'.leases tid).lessee = lessee) ∧
    (∀ fromAddr toAddr tokenId s',
        transferToken s fromAddr toAddr tokenId = .ok s' →
        s'.owners tokenId = toAddr ∧ (s'.leases tokenId).lessee = toAddr) := by
  obtain ⟨hcnt, hray, h0, hex, hbind⟩ := inv_reachable hreach
  refine ⟨?_, ?_, ?_⟩
  · intro tid hexist
    exact (hex tid hexist).1
  · intro msgSender lessor lessee domainName startDate endDate priceAmount
      restrictions agreementIpfsHash uri s' tid hok
    obtain ⟨-, -, -, -, -, -, htid, hs'⟩ := mintLease_ok hok
    subst hs'
    subst htid
    dsimp only
    simp
  · intro fromAddr toAddr tokenId s' hok
    obtain ⟨-, -, -, hs'⟩ := transferToken_ok hok
    subst hs'
    dsimp only
    simp

/-- Witness for C9 at `stOne`: token 1's recorded lessee (20) is its ERC721
owner, and the concrete transfer 20 → 30 updates both. -/
theorem c9_lessee_equals_owner_witness :
    (stOne.leases 1).lessee = stOne.owners 1 ∧
    (∀ s', transferToken stOne 20 30 1 = .ok s' →
        s'.owners 1 = 30 ∧ (s'.leases 1).lessee = 30) := by
  refine ⟨(c9_lessee_equals_owner reachable_stOne).1 1 (by decide), ?_⟩
  intro s' hok
  exact (c9_lessee_equals_owner reachable_stOne).2.2 20 30 1 s' hok

/-! ## The listing routes of routes/domains.js (part_001, lines 1210–1699)

The persistence collaborator is modelled as a list of records; JavaScript
truthiness of the `x || y` defaulting in the PATCH handler is modelled per
type: a number is falsy iff it is 0, a string iff it is empty, `undefined`
(absent field) is falsy, and an array is always truthy. -/

/-- `Listing.status` enum. -/
inductive ListingStatus
  | active | leased | expired | cancelled
  deriving DecidableEq, Repr

/-- The Listing model (part_001, lines 186–263); fields irrelevant to the
routes under verification (`qrCodeUrl`, `featured`, timestamps) keep their
place but are never consulted by the handlers below. -/
structure Listing where
  id : Nat
  domainId : Nat
  lessorId : Nat
  leaseType : String
  priceAmount : Int
  priceCurrency : String
  durationDays : Int
  restrictions : Option String
  description : Option String
  tags : List String
  status : ListingStatus
  nftContractAddress : Option String
  nftTokenId : Option String
  viewsCount : Nat
  featured : Bool
  deriving DecidableEq, Repr

/-- The Domain model (part_001, lines 129–183), the fields the listing
routes touch. -/
structure DomainRec where
  id : Nat
  domainName : String
  tld : String
  domainType : String
  ownerId : Nat
  verificationStatus : String
  existingSiteUrl : Option String
  deriving DecidableEq, Repr

/-- Body of `PATCH /api/domains/listings/:id`; `none` models an absent
(`undefined`) field. -/
structure UpdateBody where
  price : Option Int
  description : Option String
  restrictions : Option String
  tags : Option (List String)
  status : Option String
  deriving Repr

/-- JS `price || listing.priceAmount`: a number is falsy iff 0. -/
def numOr (v : Option Int) (old : Int) : Int :=
  match v with
  | some p => if p = 0 then old else p
  | none => old

/-- JS `description || listing.description` where the stored column is
nullable: a string is falsy iff empty. -/
def strOr (v : Option String) (old : Option String) : Option String :=
  match v with
  | some str => if str = "" then old else some str
  | none => old

/-- JS `tags || listing.tags`: an array is always truthy, even `[]`. -/
def arrOr (v : Option (List String)) (old : List String) : List String :=
  match v with
  | some a => a
  | none => old

/-- Sequelize's parse of a string into the `status` ENUM. -/
def parseStatus (str : String) : Except String ListingStatus :=
  if str = "active" then .ok .active
  else if str = "leased" then .ok .leased
  else if str = "expired" then .ok .expired
  else if str = "cancelled" then .ok .cancelled
  else .error "invalid input value for enum"

/-- JS `status || listing.status` through the ENUM column: an empty or
absent string keeps the stored status, any other string must parse. -/
def statusOr (v : Option String) (old : ListingStatus) : Except String ListingStatus :=
  match v with
  | some str => if str = "" then .ok old else parseStatus str
  | none => .ok old

/-- The `listing.update({...})` call of the PATCH handler (part_001, lines
1539–1545). -/
def applyUpdate (l : Listing) (body : UpdateBody) : Except String Listing := do
  let st ← statusOr body.status l.status
  return { l with
    priceAmount := numOr body.price l.priceAmount,
    description := strOr body.description l.description,
    restrictions := strOr body.restrictions l.restrictions,
    tags := arrOr body.tags l.tags,
    status := st }

/-- Outcome of `PATCH /api/domains/listings/:id`. -/
inductive PatchOutcome
  | notFound
  | forbidden
  | updated (l : Listing)
  | serverError
  deriving DecidableEq, Repr

/-- `PATCH /api/domains/listings/:id` (part_001, lines 1522–1564): 404 if
the listing does not exist, 403 unless the requester is the lessor, 500 if
the persistence update throws, else the updated listing. -/
def patchListing (store : List Listing) (userId lid : Nat) (body : UpdateBody) :
    PatchOutcome :=
  match store.find? (fun l => l.id = lid) with
  | none => .notFound
  | some listing =>
    if listing.lessorId ≠ userId then .forbidden
    else
      match applyUpdate listing body with
      | .error _ => .serverError
      | .ok l' => .updated l'

/-- Outcome of `DELETE /api/domains/listings/:id`. -/
inductive DeleteOutcome
  | notFound
  | forbidden
  | cannotDelete
  | removed (l : Listing)
  deriving DecidableEq, Repr

/-- `DELETE /api/domains/listings/:id` (part_001, lines 1569–1608): 404 if
absent, 403 unless the requester is the lessor, 400 `"Cannot delete active
lease"` if `status === 'leased'`, else set `status := cancelled`. -/
def deleteListing (store : List Listing) (userId lid : Nat) : DeleteOutcome :=
  match store.find? (fun l => l.id = lid) with
  | none => .notFound
  | some listing =>
    if listing.lessorId ≠ userId then .forbidden
    else if listing.status = .leased then .cannotDelete
    else .removed { listing with status := .cancelled }

/-- Body of `POST /api/domains/listings`. -/
structure CreateBody where
  domainName : String
  domainType : String
  price : Int
  durationMonths : Int
  description : Option String
  restrictions : Option String
  tags : Option (List String)
  existingSiteUrl : Option String
  deriving Repr

/-- Outcome of `POST /api/domains/listings`. -/
inductive CreateOutcome
  | notOwned
  | created (d : DomainRec) (l : Listing)
  deriving DecidableEq, Repr

/-- The `Listing.create({...})` call of the POST handler (part_001, lines
1481–1492). -/
def mkListing (userId freshListingId : Nat) (body : CreateBody) (d : DomainRec) :
    Listing :=
  { id := freshListingId, domainId := d.id, lessorId := userId,
    leaseType := "fixed", priceAmount := body.price, priceCurrency := "USD",
    durationDays := body.durationMonths * 30,
    restrictions := body.restrictions, description := body.description,
    tags := (body.tags).getD [], status := .active,
    nftContractAddress := none, nftTokenId := none,
    viewsCount := 0, featured := false }

/-- The `Domain.create({...})` call of the POST handler (part_001, lines
1469–1477). -/
def mkDomain (userId freshDomainId : Nat) (body : CreateBody) : DomainRec :=
  { id := freshDomainId, domainName := body.domainName,
    tld := ((body.domainName).splitOn ".").getLastD "",
    domainType := body.domainType, ownerId := userId,
    verificationStatus := "pending",
    existingSiteUrl := body.existingSiteUrl }

/-- `POST /api/domains/listings` (part_001, lines 1442–1517): finds or
creates the Domain (403 when it exists under another owner), then creates
the Listing with `priceAmount := price`, `durationDays := durationMonths *
30` and `status := 'active'` — no validation of price or duration is
performed. -/
def createListing (domains : List DomainRec) (userId : Nat) (body : CreateBody)
    (freshDomainId freshListingId : Nat) : CreateOutcome :=
  match domains.find? (fun d => d.domainName = body.domainName) with
  | some d =>
      if d.ownerId ≠ userId then .notOwned
      else .created d (mkListing userId freshListingId body d)
  | none =>
      .created (mkDomain userId freshDomainId body)
        (mkListing userId freshListingId body (mkDomain userId freshDomainId body))

/-- Shape of a successful `applyUpdate`: the stored status parses (or is
kept) and every column gets its JS `x || old` default. -/
theorem applyUpdate_ok {l : Listing} {body : UpdateBody} {l' : Listing}
    (h : applyUpdate l body = .ok l') :
    ∃ st, statusOr body.status l.status = .ok st ∧
      l' = { l with
        priceAmount := numOr body.price l.priceAmount,
        description := strOr body.description l.description,
        restrictions := strOr body.restrictions l.restrictions,
        tags := arrOr body.tags l.tags,
        status := st } := by
  unfold applyUpdate at h
  cases hst : statusOr body.status l.status with
  | error e =>
      rw [hst] at h
      exact absurd h (by simp [Bind.bind, Except.bind])
  | ok st =>
      rw [hst] at h
      refine ⟨st, rfl, ?_⟩
      simp only [Bind.bind, Except.bind, pure, Except.pure, Except.ok.injEq] at h
      exact h.symm

/-- Successful `patchListing` decomposes into the find, the lessor check
and a successful `applyUpdate`. -/
theorem patchListing_updated {store : List Listing} {userId lid : Nat}
    {body : UpdateBody} {l' : Listing}
    (h : patchListing store userId lid body = .updated l') :
    ∃ listing, store.find? (fun l => l.id = lid) = some listing ∧
      listing.lessorId = userId ∧ applyUpdate listing body = .ok l' := by
  unfold patchListing at h
  split at h
  · exact absurd h (by simp)
  · rename_i listing hfind
    refine ⟨listing, hfind, ?_⟩
    split at h
    · exact absurd h (by simp)
    · rename_i hles
      constructor
      · omega
      · split at h
        · exact absurd h (by simp)
        · rename_i l2 hupd
          simp only [PatchOutcome.updated.injEq] at h
          rw [hupd, h]

/-! ### Sample records for the listing-route claims -/

/-- An expired listing owned by lessor 5. -/
def lstExpired : Listing :=
  { id := 1, domainId := 1, lessorId := 5, leaseType := "fixed",
    priceAmount := 100, priceCurrency := "USD", durationDays := 30,
    restrictions := none, description := none, tags := [],
    status := .expired, nftContractAddress := none, nftTokenId := none,
    viewsCount := 0, featured := false }

/-- A cancelled listing owned by lessor 5. -/
def lstCancelled : Listing :=
  { lstExpired with status := .cancelled }

/-- An active listing owned by lessor 5 carrying one tag. -/
def lstTagged : Listing :=
  { lstExpired with status := .active, tags := ["premium"] }

/-- A publish request with price 0 and duration 0 months. -/
def bodyZeroPrice : CreateBody :=
  { domainName := "zero.com", domainType := "web2", price := 0,
    durationMonths := 0, description := none, restrictions := none,
    tags := none, existingSiteUrl := none }

/-! ## Claim theorems about the listing routes -/

/-- C3 counterexample: the claim says that cancel
(`DELETE /api/domains/listings/:id`) by the lessor on a Listing whose
status is already terminal (`expired` here) fails with `InvalidStateError`
and leaves the status unchanged.  The handler, however, only rejects
`status === 'leased'`: on the expired listing it succeeds and rewrites the
status to `cancelled`. -/
theorem c3_cancel_counterexample :
    deleteListing [lstExpired] 5 1 =
      .removed { lstExpired with status := .cancelled } ∧
    lstExpired.status = .expired := ⟨rfl, rfl⟩

/-- C3 amended: cancel by the lessor fails (HTTP 400, listing unchanged)
exactly when the status is `leased`; from every other status (`active`,
`expired`, `cancelled`) it succeeds and sets the status to `cancelled` —
in particular cancel from `active` cancels the listing. -/
theorem c3_cancel_only_guards_leased {store : List Listing} {userId lid : Nat}
    {listing : Listing}
    (hfind : store.find? (fun l => l.id = lid) = some listing)
    (hlessor : listing.lessorId = userId) :
    (listing.status = .leased → deleteListing store userId lid = .cannotDelete) ∧
    (listing.status ≠ .leased →
      deleteListing store userId lid =
        .removed { listing with status := .cancelled }) := by
  have hbase : deleteListing store userId lid =
      (if listing.lessorId ≠ userId then .forbidden
       else if listing.status = .leased then .cannotDelete
       else .removed { listing with status := .cancelled }) := by
    unfold deleteListing
    rw [hfind]
  constructor
  · intro hst
    rw [hbase, if_neg (by simp [hlessor]), if_pos hst]
  · intro hst
    rw [hbase, if_neg (by simp [hlessor]), if_neg hst]

/-- Witness for the amended C3 on the concrete one-listing store holding
the `active` listing `lstTagged`: the lessor's cancel succeeds and sets
`cancelled`. -/
theorem c3_cancel_only_guards_leased_witness :
    deleteListing [lstTagged] 5 1 =
      .removed { lstTagged with status := .cancelled } := by
  exact (@c3_cancel_only_guards_leased [lstTagged] 5 1 lstTagged rfl rfl).2 (by decide)

/-- C4 counterexample: the claim says a `cancelled` Listing is immutable.
The PATCH handler performs no status check: the lessor updates the price
of the cancelled listing from 100 to 200. -/
theorem c4_cancelled_counterexample :
    patchListing [lstCancelled] 5 1
      { price := some 200, description := none, restrictions := none,
        tags := none, status := none } =
      .updated { lstCancelled with priceAmount := 200 } ∧
    lstCancelled.status = .cancelled ∧ lstCancelled.priceAmount = 100 :=
  ⟨rfl, rfl, rfl⟩

/-- C4 amended: a `cancelled` Listing is not immutable — the update
operation (`PATCH /api/domains/listings/:id`) never consults the status,
so the lessor can still change the fields of a cancelled listing, even
moving its status back to `active`. -/
theorem c4_cancelled_listing_mutable {store : List Listing} {userId lid : Nat}
    {listing : Listing}
    (hfind : store.find? (fun l => l.id = lid) = some listing)
    (hlessor : listing.lessorId = userId)
    (hcancelled : listing.status = .cancelled) :
    ∀ p : Int, p ≠ 0 →
      patchListing store userId lid
        { price := some p, description := none, restrictions := none,
          tags := none, status := some "active" } =
        .updated { listing with priceAmount := p, status := .active } := by
  intro p hp
  have hupd : applyUpdate listing
      { price := some p, description := none, restrictions := none,
        tags := none, status := some "active" } =
      .ok { listing with priceAmount := p, status := .active } := by
    unfold applyUpdate
    have h1 : statusOr (some "active") listing.status = .ok ListingStatus.active := rfl
    rw [h1]
    simp only [Bind.bind, Except.bind, pure, Except.pure, Except.ok.injEq]
    simp [numOr, strOr, arrOr, hp]
  have hbase : patchListing store userId lid
      { price := some p, description := none, restrictions := none,
        tags := none, status := some "active" } =
      (if listing.lessorId ≠ userId then .forbidden
       else match applyUpdate listing
          { price := some p, description := none, restrictions := none,
            tags := none, status := some "active" } with
        | .error _ => .serverError
        | .ok l2 => .updated l2) := by
    unfold patchListing
    rw [hfind]
  rw [hbase, if_neg (by simp [hlessor]), hupd]

/-- Witness for the amended C4 at the concrete cancelled listing: the
lessor sets the price to 250 and the status back to `active`. -/
theorem c4_cancelled_listing_mutable_witness :
    patchListing [lstCancelled] 5 1
      { price := some 250, description := none, restrictions := none,
        tags := none, status := some "active" } =
      .updated { lstCancelled with priceAmount := 250, status := .active } := by
  exact @c4_cancelled_listing_mutable [lstCancelled] 5 1 lstCancelled rfl rfl rfl 250 (by decide)

/-- C5 counterexample: the claim says publish (`POST /api/domains/listings`)
with price ≤ 0 or duration ≤ 0 fails with `ValidationError` and creates no
Listing.  The handler performs no such validation: with price 0 and
duration 0 months it creates the domain and an `active` Listing. -/
theorem c5_publish_counterexample :
    createListing [] 7 bodyZeroPrice 1 2 =
      .created (mkDomain 7 1 bodyZeroPrice) (mkListing 7 2 bodyZeroPrice (mkDomain 7 1 bodyZeroPrice)) ∧
    bodyZeroPrice.price = 0 ∧ bodyZeroPrice.durationMonths = 0 ∧
    (mkListing 7 2 bodyZeroPrice (mkDomain 7 1 bodyZeroPrice)).status = .active ∧
    (mkListing 7 2 bodyZeroPrice (mkDomain 7 1 bodyZeroPrice)).priceAmount = 0 :=
  ⟨rfl, rfl, rfl, rfl, rfl⟩

/-- C5 amended: publish performs no validation of price or duration; it
fails only when the domain already belongs to another user, and whenever a
Listing is created — for any price and duration, including price ≤ 0 and
duration ≤ 0 — the Listing is created in the `active` state with
`priceAmount = price` and `durationDays = durationMonths * 30`. -/
theorem c5_publish_no_validation {domains : List DomainRec} {userId : Nat}
    {body : CreateBody} {freshDomainId freshListingId : Nat} :
    (∀ d l, createListing domains userId body freshDomainId freshListingId = .created d l →
        l.status = .active ∧ l.priceAmount = body.price ∧
        l.durationDays = body.durationMonths * 30) ∧
    ((∀ d, domains.find? (fun d => d.domainName = body.domainName) = some d →
        d.ownerId = userId) →
      ∃ d l, createListing domains userId body freshDomainId freshListingId =
        .created d l) := by
  constructor
  · intro d l hok
    unfold createListing at hok
    split at hok
    · rename_i d0 hfind
      split at hok
      · exact absurd hok (by simp)
      · simp only [CreateOutcome.created.injEq] at hok
        rw [← hok.2]
        exact ⟨rfl, rfl, rfl⟩
    · simp only [CreateOutcome.created.injEq] at hok
      rw [← hok.2]
      exact ⟨rfl, rfl, rfl⟩
  · intro howned
    cases hfind : domains.find? (fun d => d.domainName = body.domainName) with
    | some d0 =>
        refine ⟨d0, mkListing userId freshListingId body d0, ?_⟩
        unfold createListing
        rw [hfind]
        show (if d0.ownerId ≠ userId then CreateOutcome.notOwned
          else .created d0 (mkListing userId freshListingId body d0)) = _
        rw [if_neg (by simp [howned d0 hfind])]
    | none =>
        refine ⟨mkDomain userId freshDomainId body,
          mkListing userId freshListingId body (mkDomain userId freshDomainId body), ?_⟩
        unfold createListing
        rw [hfind]

/-- Witness for the amended C5: the concrete publish with price 0 and
duration 0 creates a Listing. -/
theorem c5_publish_no_validation_witness :
    ∃ d l, createListing [] 7 bodyZeroPrice 1 2 = .created d l := by
  exact (@c5_publish_no_validation [] 7 bodyZeroPrice 1 2).2
    (by intro d h; exact absurd h (by simp))

/-- C10 counterexample: the claim says every falsy-valued field of the
PATCH body is ignored, listing "empty tags" among them.  In JavaScript an
empty array is truthy, so `tags: []` does overwrite: the stored tags
`["premium"]` become `[]`. -/
theorem c10_patch_counterexample :
    patchListing [lstTagged] 5 1
      { price := none, description := none, restrictions := none,
        tags := some [], status := none } =
      .updated { lstTagged with tags := [] } ∧
    lstTagged.tags = ["premium"] := ⟨rfl, rfl⟩

/-- C10 amended: in the PATCH operation the falsy scalar values — price 0,
empty description, empty restrictions, empty status — and absent fields
are ignored, keeping the stored values (in particular the lessor can never
turn a nonzero `priceAmount` into 0); but an empty tags array is truthy in
JavaScript, so `tags: []` does replace the stored tags with `[]`. -/
theorem c10_patch_falsy_fields {store : List Listing} {userId lid : Nat}
    {listing : Listing}
    (hfind : store.find? (fun l => l.id = lid) = some listing)
    (hlessor : listing.lessorId = userId) :
    ∀ body l', patchListing store userId lid body = .updated l' →
      ((body.price = some 0 ∨ body.price = none) →
          l'.priceAmount = listing.priceAmount) ∧
      ((body.description = some "" ∨ body.description = none) →
          l'.description = listing.description) ∧
      ((body.restrictions = some "" ∨ body.restrictions = none) →
          l'.restrictions = listing.restrictions) ∧
      ((body.status = some "" ∨ body.status = none) →
          l'.status = listing.status) ∧
      (body.tags = none → l'.tags = listing.tags) ∧
      (listing.priceAmount ≠ 0 → l'.priceAmount ≠ 0) ∧
      (body.tags = some [] → l'.tags = []) := by
  intro body l' hpatch
  obtain ⟨listing2, hfind2, hles2, hupd⟩ := patchListing_updated hpatch
  rw [hfind] at hfind2
  injection hfind2 with he
  subst he
  obtain ⟨st, hst, hl'⟩ := applyUpdate_ok hupd
  subst hl'
  refine ⟨?_, ?_, ?_, ?_, ?_, ?_, ?_⟩
  · rintro (hb | hb) <;> simp [numOr, hb]
  · rintro (hb | hb) <;> simp [strOr, hb]
  · rintro (hb | hb) <;> simp [strOr, hb]
  · rintro (hb | hb)
    · rw [hb] at hst
      have h2 : (Except.ok listing.status : Except String ListingStatus) = .ok st := by
        rw [← hst]
        rfl
      injection h2 with h2
      exact h2.symm
    · rw [hb] at hst
      have h2 : (Except.ok listing.status : Except String ListingStatus) = .ok st := by
        rw [← hst]
        rfl
      injection h2 with h2
      exact h2.symm
  · intro hb; simp [arrOr, hb]
  · intro hnz
    dsimp only
    cases hb : body.price with
    | none => simpa [numOr, hb] using hnz
    | some p =>
        by_cases hp : p = 0
        · simpa [numOr, hb, hp] using hnz
        · simp [numOr, hb, hp]
  · intro hb; simp [arrOr, hb]

/-- Witness for the amended C10 at the concrete tagged listing: a body
with price 0, empty description/restrictions/status and `tags: []` leaves
the price at 100 but wipes the tags. -/
theorem c10_patch_falsy_fields_witness :
    patchListing [lstTagged] 5 1
      { price := some 0, description := some "", restrictions := some "",
        tags := some [], status := some "" } =
      .updated { lstTagged with tags := [] } ∧
    ({ lstTagged with tags := ([] : List String) }).priceAmount =
      lstTagged.priceAmount ∧
    ({ lstTagged with tags := ([] : List String) }).tags = [] := by
  refine ⟨rfl, ?_, ?_⟩
  · exact ((@c10_patch_falsy_fields [lstTagged] 5 1 lstTagged rfl rfl
      { price := some 0, description := some "", restrictions := some "",
        tags := some [], status := some "" }
      { lstTagged with tags := [] } rfl).1 (Or.inl rfl))
  · exact ((@c10_patch_falsy_fields [lstTagged] 5 1 lstTagged rfl rfl
      { price := some 0, description := some "", restrictions := some "",
        tags := some [], status := some "" }
      { lstTagged with tags := [] } rfl).2.2.2.2.2.2 rfl)

/-! ## The auth routes of routes/auth.js (part_000)

The jsonwebtoken collaborator is embedded as a record carrying the signed
payload and the secret it was signed with; `jwtVerify` accepts a token iff
the secrets match and — unless `ignoreExpiration` — the token has not
expired.  bcrypt hashing/comparison and the ethers signature recovery are
external collaborators, passed in as functions / pre-computed results. -/

/-- The claims `jwt.sign` embeds: `{ userId }` plus the `iat`/`exp` pair
that `expiresIn` derives. -/
structure JwtPayload where
  userId : Nat
  iat : Nat
  exp : Nat
  deriving DecidableEq, Repr

/-- A signed token: payload plus the secret used to sign it (standing in
for the HMAC signature). -/
structure Jwt where
  payload : JwtPayload
  signedWith : String
  deriving DecidableEq, Repr

/-- `'7d'` in seconds. -/
def sevenDays : Nat := 7 * 24 * 60 * 60

/-- `generateToken` (part_000, lines 25–31):
`jwt.sign({ userId }, JWT_SECRET, { expiresIn: '7d' })` at time `now`. -/
def generateToken (userId : Nat) (secret : String) (now : Nat) : Jwt :=
  { payload := { userId := userId, iat := now, exp := now + sevenDays },
    signedWith := secret }

/-- `jwt.verify(token, secret, { ignoreExpiration })` at time `now`. -/
def jwtVerify (tok : Jwt) (secret : String) (ignoreExpiration : Bool) (now : Nat) :
    Except String JwtPayload :=
  if tok.signedWith ≠ secret then .error "JsonWebTokenError"
  else if ¬ ignoreExpiration ∧ tok.payload.exp < now then .error "TokenExpiredError"
  else .ok tok.payload

/-- The User rows the auth routes touch. -/
structure AuthUser where
  id : Nat
  email : String
  passwordHash : String
  walletAddress : Option String
  deriving DecidableEq, Repr

/-- Outcome of `POST /api/auth/register`. -/
inductive RegisterOutcome
  | validationFailed
  | conflict
  | registered (tok : Jwt) (users : List AuthUser)
  deriving DecidableEq, Repr

/-- `POST /api/auth/register` (part_000, lines 36–91): after the validator
middleware, reject a duplicate email with 409, else create the user with
the bcrypt hash and answer with `generateToken(user.id)`. -/
def registerRoute (users : List AuthUser) (secret : String) (now : Nat)
    (bcryptHash : String → String) (validationOk : Bool)
    (email password : String) (freshId : Nat) : RegisterOutcome :=
  if ¬ validationOk then .validationFailed
  else
    match users.find? (fun u => u.email = email) with
    | some _ => .conflict
    | none =>
        .registered (generateToken freshId secret now)
          (users ++ [{ id := freshId, email := email,
                       passwordHash := bcryptHash password, walletAddress := none }])

/-- Outcome of `POST /api/auth/login`. -/
inductive LoginOutcome
  | validationFailed
  | invalidCredentials
  | loggedIn (tok : Jwt)
  deriving DecidableEq, Repr

/-- `POST /api/auth/login` (part_000, lines 96–158): find the user by
email, compare the password with bcrypt, answer with
`generateToken(user.id)`. -/
def loginRoute (users : List AuthUser) (secret : String) (now : Nat)
    (bcryptCompare : String → String → Bool) (validationOk : Bool)
    (email password : String) : LoginOutcome :=
  if ¬ validationOk then .validationFailed
  else
    match users.find? (fun u => u.email = email) with
    | none => .invalidCredentials
    | some u =>
        if ¬ bcryptCompare password u.passwordHash then .invalidCredentials
        else .loggedIn (generateToken u.id secret now)

/-- Outcome of `POST /api/auth/wallet-login`. -/
inductive WalletLoginOutcome
  | invalidSignature
  | loggedIn (tok : Jwt) (users : List AuthUser)
  deriving DecidableEq, Repr

/-- `POST /api/auth/wallet-login` (part_000, lines 163–219):
`recoveredAddress` stands for the result of `ethers.verifyMessage`; on a
case-insensitive match, find the wallet user or create one, and answer
with `generateToken(user.id)`. -/
def walletLoginRoute (users : List AuthUser) (secret : String) (now : Nat)
    (recoveredAddress walletAddress : String) (freshId : Nat)
    (randomHash : String) : WalletLoginOutcome :=
  if recoveredAddress.toLower ≠ walletAddress.toLower then .invalidSignature
  else
    match users.find? (fun u => u.walletAddress = some walletAddress) with
    | some u => .loggedIn (generateToken u.id secret now) users
    | none =>
        .loggedIn (generateToken freshId secret now)
          (users ++ [{ id := freshId,
                       email := (walletAddress.take 10) ++ "@wallet.godwallet.com",
                       passwordHash := randomHash,
                       walletAddress := some walletAddress }])

/-- Outcome of `POST /api/auth/refresh`. -/
inductive RefreshOutcome
  | noToken
  | invalidToken
  | userNotFound
  | refreshed (tok : Jwt)
  deriving DecidableEq, Repr

/-- `POST /api/auth/refresh` (part_000, lines 282–316): 401 without a
token; verify the presented token with `ignoreExpiration: true`; 404 when
the referenced user no longer exists; else answer with a fresh
`generateToken(user.id)`. -/
def refreshRoute (users : List AuthUser) (secret : String) (now : Nat)
    (tok : Option Jwt) : RefreshOutcome :=
  match tok with
  | none => .noToken
  | some t =>
      match jwtVerify t secret true now with
      | .error _ => .invalidToken
      | .ok payload =>
          match users.find? (fun u => u.id = payload.userId) with
          | none => .userNotFound
          | some u => .refreshed (generateToken u.id secret now)

/-! ## Claim theorem about the auth routes -/

/-- C8: Every session credential issued by register, login, wallet-login or
refresh is `generateToken(user.id)`, i.e. it encodes the user's id with a
7-day validity (`exp = iat + 7·24·60·60`); refresh verifies the presented
token ignoring its expiration — any correctly signed token, expired or
not, is accepted and refreshed exactly when the referenced user still
exists, while a token signed with another secret is rejected. -/
theorem c8_session_tokens {users : List AuthUser} {secret : String} {now : Nat} :
    (∀ userId, (generateToken userId secret now).payload.userId = userId ∧
        (generateToken userId secret now).payload.iat = now ∧
        (generateToken userId secret now).payload.exp =
          (generateToken userId secret now).payload.iat + 7 * 24 * 60 * 60) ∧
    (∀ bcryptHash validationOk email password freshId tok users',
        registerRoute users secret now bcryptHash validationOk email password freshId =
          .registered tok users' → tok = generateToken freshId secret now) ∧
    (∀ bcryptCompare validationOk email password tok,
        loginRoute users secret now bcryptCompare validationOk email password =
          .loggedIn tok →
        ∃ u, users.find? (fun u => u.email = email) = some u ∧
          tok = generateToken u.id secret now) ∧
    (∀ recoveredAddress walletAddress freshId randomHash tok users',
        walletLoginRoute users secret now recoveredAddress walletAddress freshId
          randomHash = .loggedIn tok users' →
        ∃ uid, tok = generateToken uid secret now) ∧
    (∀ t : Jwt, t.signedWith = secret →
        refreshRoute users secret now (some t) =
          (match users.find? (fun u => u.id = t.payload.userId) with
           | none => .userNotFound
           | some u => .refreshed (generateToken u.id secret now))) ∧
    (∀ t : Jwt, t.signedWith ≠ secret →
        refreshRoute users secret now (some t) = .invalidToken) := by
  refine ⟨?_, ?_, ?_, ?_, ?_, ?_⟩
  · intro userId
    exact ⟨rfl, rfl, rfl⟩
  · intro bcryptHash validationOk email password freshId tok users' h
    unfold registerRoute at h
    split at h
    · exact absurd h (by simp)
    · split at h
      · exact absurd h (by simp)
      · simp only [RegisterOutcome.registered.injEq] at h
        exact h.1.symm
  · intro bcryptCompare validationOk email password tok h
    unfold loginRoute at h
    split at h
    · exact absurd h (by simp)
    · split at h
      · exact absurd h (by simp)
      · rename_i u hfind
        split at h
        · exact absurd h (by simp)
        · simp only [LoginOutcome.loggedIn.injEq] at h
          exact ⟨u, hfind, h.symm⟩
  · intro recoveredAddress walletAddress freshId randomHash tok users' h
    unfold walletLoginRoute at h
    split at h
    · exact absurd h (by simp)
    · split at h
      all_goals simp only [WalletLoginOutcome.loggedIn.injEq] at h
      all_goals exact ⟨_, h.1.symm⟩
  · intro t ht
    have hv : jwtVerify t secret true now = .ok t.payload := by
      unfold jwtVerify
      rw [if_neg (by simp [ht])]
      rw [if_neg (by simp)]
    show (match jwtVerify t secret true now with
      | .error _ => RefreshOutcome.invalidToken
      | .ok payload =>
          match users.find? (fun (u : AuthUser) => u.id = payload.userId) with
          | none => RefreshOutcome.userNotFound
          | some u => RefreshOutcome.refreshed (generateToken u.id secret now)) = _
    rw [hv]
  · intro t ht
    have hv : jwtVerify t secret true now = .error "JsonWebTokenError" := by
      unfold jwtVerify
      rw [if_pos ht]
    show (match jwtVerify t secret true now with
      | .error _ => RefreshOutcome.invalidToken
      | .ok payload =>
          match users.find? (fun (u : AuthUser) => u.id = payload.userId) with
          | none => RefreshOutcome.userNotFound
          | some u => RefreshOutcome.refreshed (generateToken u.id secret now)) =
      RefreshOutcome.invalidToken
    rw [hv]

/-- A sample user for the C8 witness. -/
def userAlice : AuthUser :=
  { id := 5, email := "alice@x.com", passwordHash := "hash", walletAddress := none }

/-- A token for user 5 signed with the right secret whose 7-day validity
(issued at 0, expiring at 604800) has already passed at `now = 1000000`. -/
def expiredTok : Jwt :=
  { payload := { userId := 5, iat := 0, exp := 604800 }, signedWith := "s" }

/-- Witness for C8: the expired but correctly signed token is accepted by
refresh and a fresh 7-day token for the still-existing user 5 is issued. -/
theorem c8_session_tokens_witness :
    expiredTok.payload.exp < 1000000 ∧
    refreshRoute [userAlice] "s" 1000000 (some expiredTok) =
      .refreshed (generateToken 5 "s" 1000000) ∧
    (generateToken 5 "s" 1000000).payload.exp =
      (generateToken 5 "s" 1000000).payload.iat + 7 * 24 * 60 * 60 := by
  refine ⟨by decide, ?_, ?_⟩
  · have h := (@c8_session_tokens [userAlice] "s" 1000000).2.2.2.2.1 expiredTok rfl
    rw [h]
    rfl
  · exact ((@c8_session_tokens [userAlice] "s" 1000000).1 5).2.2

/-! ## Spec-modelled lease creation (C2)

`server.js` wires a lease route (`/api/leases`, `routes/leases.js`), but
that file is not among the provided sources; only the spec describes it. -/

/-- Failure modes of the blockchain collaborator (spec §6): a transient
network error (retryable) or a contract revert (not retryable). -/
inductive ChainError
  | transient
  | contractRevert (msg : String)
  deriving DecidableEq, Repr

/-- `Lease.status` (spec §3). -/
inductive LeaseStatus
  | active | completed | terminated | disputed
  deriving DecidableEq, Repr

/-- A Lease row (spec §3), the fields lease creation writes. -/
structure LeaseRec where
  id : Nat
  listingId : Nat
  lesseeId : Nat
  startDate : Nat
  endDate : Nat
  paymentAmount : Int
  status : LeaseStatus
  deriving DecidableEq, Repr

/-- Error taxonomy of lease creation (spec §7): `invalidState` for a
non-`active` listing, `retryable` for a transient collaborator failure,
`permanent` for a contract revert. -/
inductive CreateLeaseError
  | invalidState
  | retryable
  | permanent (msg : String)
  deriving DecidableEq, Repr

/-- Modelled from the spec: the repository's lease-creation handler
(`routes/leases.js`, mounted at `/api/leases` by server.js) is missing
from the sources, so `createLease` follows spec §4.2 and §5 word for word:
fail with `InvalidStateError` unless `listing.status = active`; otherwise
create a Lease in `active` status, mark the Listing `leased` and — when
NFT issuance is requested — run the token-binding step against the
blockchain collaborator, all as one atomic unit of work: if the
collaborator fails, nothing is persisted (the function returns only the
error, so the caller keeps the unchanged `active` listing and lease
table), and a transient failure surfaces as the retryable error. -/
def createLease (listing : Listing) (leases : List LeaseRec)
    (lesseeId newLeaseId startDate endDate : Nat) (payment : Int)
    (nftRequested : Bool)
    (chainResult : Except ChainError (String × String)) :
    Except CreateLeaseError (Listing × List LeaseRec) :=
  if listing.status ≠ .active then .error .invalidState
  else
    let lease : LeaseRec :=
      { id := newLeaseId, listingId := listing.id, lesseeId := lesseeId,
        startDate := startDate, endDate := endDate, paymentAmount := payment,
        status := .active }
    let leased := { listing with status := ListingStatus.leased }
    if nftRequested then
      match chainResult with
      | .error .transient => .error .retryable
      | .error (.contractRevert m) => .error (.permanent m)
      | .ok (addr, tokenId) =>
          .ok ({ leased with
                 nftContractAddress := some addr,
                 nftTokenId := some tokenId }, leases ++ [lease])
    else .ok (leased, leases ++ [lease])

/-- C2 (spec-modelled): for every `createLease` invocation on an `active`
Listing with NFT issuance requested in which the blockchain collaborator
returns a transient error, the call returns the retryable error and
returns no new state — so no Lease is persisted and the Listing the caller
holds still has status `active` (the markLeased change is part of the
discarded result, i.e. rolled back). -/
theorem c2_createLease_rollback {listing : Listing} {leases : List LeaseRec}
    {lesseeId newLeaseId startDate endDate : Nat} {payment : Int}
    (hactive : listing.status = .active) :
    createLease listing leases lesseeId newLeaseId startDate endDate payment
      true (.error .transient) = .error .retryable ∧
    (∀ l' ls',
      createLease listing leases lesseeId newLeaseId startDate endDate payment
        true (.error .transient) ≠ .ok (l', ls')) ∧
    listing.status = .active := by
  refine ⟨?_, ?_, hactive⟩
  · unfold createLease
    rw [if_neg (by simp [hactive])]
    rfl
  · intro l' ls' h
    unfold createLease at h
    rw [if_neg (by simp [hactive])] at h
    exact absurd h (by simp)

/-- Witness for C2 at the concrete active listing `lstTagged`: the
transient binding failure surfaces as the retryable error. -/
theorem c2_createLease_rollback_witness :
    createLease lstTagged [] 9 1 0 100 100 true (.error .transient) =
      .error .retryable :=
  (@c2_createLease_rollback lstTagged [] 9 1 0 100 100 rfl).1

end Godwallet

